import Mathlib

/-!
Shallow embedding of the whatif toolkit (src/src/whatif/whatif.py).

Modelling conventions:

* A model instance is a mutable bag of named attributes.  Its attribute
  dictionary is an insertion-ordered association list `AttrState V`
  (Python dicts and object attribute tables preserve insertion order;
  `setattr` / `dict.__setitem__` update an existing key in place and
  append a new key at the end — `pySet` below).
* The drivers never compute on attribute values themselves, they only move
  them around, so the definitions are generic in the value type `V`.
  Claims that need concrete computation instantiate `V` with
  `Val := PyVal Int`: a Python number or a numpy array of numbers
  (numbers are modelled as exact integers where the claims only need
  integer instances; `goal_seek`, which divides by 2, is embedded over ℚ).
* A pandas DataFrame is modelled by its list of rows, each row an ordered
  list of named cells.  Column assignment `df[k] = v` broadcasts scalars
  and assigns list-likes element-wise (ValueError on length mismatch), and
  `pd.concat` aligns frames to the first-appearance-order union of their
  column lists, filling missing cells with NaN, as pandas does.
* A model's zero-argument output methods are pure functions of the current
  attribute state; a method call that raises is an `Except.error`.
  `Methods V` maps a method name to such a function (`getattr` dispatch).
* Each driver is embedded as a function on a two-object heap `World V`
  holding the caller's model (`self`) and the driver's private clone
  (`clone`): `copy.deepcopy(self)` copies `self`'s attribute state into
  `clone`, and every `setattr` in the source names the object it mutates.
  The driver returns the final heap together with its result;
  an uncaught Python exception is `Except.error`.
* `PyExc` models the exceptions that the source can raise.  The source
  defines no exception classes of its own; `configurationError` and
  `modelEvaluationError` appear in the spec's error taxonomy (§7) only and
  are included as constructors so that their absence from the code's
  behaviour can be stated.
-/

/-- Decidable equality for Except, so concrete driver results can be
checked by the decide tactic. -/
def Except.decEq {ε α : Type} [DecidableEq ε] [DecidableEq α] :
    (a b : Except ε α) → Decidable (a = b)
  | .ok x, .ok y =>
      if h : x = y then isTrue (congrArg Except.ok h)
      else isFalse fun hh => h (Except.ok.inj hh)
  | .error x, .error y =>
      if h : x = y then isTrue (congrArg Except.error h)
      else isFalse fun hh => h (Except.error.inj hh)
  | .ok _, .error _ => isFalse fun hh => Except.noConfusion hh
  | .error _, .ok _ => isFalse fun hh => Except.noConfusion hh

instance {ε α : Type} [DecidableEq ε] [DecidableEq α] : DecidableEq (Except ε α) :=
  Except.decEq

inductive PyExc where
  | valueError : PyExc
  | indexError : PyExc
  | attributeError : PyExc
  | userError : String → PyExc
  | configurationError : PyExc
  | modelEvaluationError : Nat → String → PyExc
deriving DecidableEq, Repr

/-- True exactly on the spec's ModelEvaluationError. -/
def PyExc.isModelEvalError : PyExc → Bool
  | .modelEvaluationError _ _ => true
  | _ => false

/-- A Python value as the claims need it: a number, a numpy array, or the
NaN placeholder that pandas outer alignment fills missing cells with.  The
drivers never produce nan; only pd.concat column alignment does.
Comparing nan by structural equality is a modelling convention (it is a
fill marker, not an IEEE float). -/
inductive PyVal (α : Type) where
  | num : α → PyVal α
  | arr : List α → PyVal α
  | nan : PyVal α
deriving DecidableEq, Repr

abbrev Val := PyVal Int

/-- The list of numbers held by an array value (non-arrays give `[]`). -/
def PyVal.arrD {α : Type} : PyVal α → List α
  | .arr l => l
  | _ => []

/-- True exactly on array values. -/
def PyVal.isArr {α : Type} : PyVal α → Bool
  | .arr _ => true
  | _ => false

/-- Attribute dictionary of a model object, insertion ordered. -/
abbrev AttrState (V : Type) := List (String × V)

/-- Python attribute/dict assignment: replace the value of an existing key
in place, else append the new key at the end. -/
def pySet {V : Type} : AttrState V → String → V → AttrState V
  | [], k, v => [(k, v)]
  | p :: rest, k, v =>
      if p.1 = k then (k, v) :: rest else p :: pySet rest k v

/-- Python attribute/dict lookup. -/
def pyGet {V : Type} : AttrState V → String → Option V
  | [], _ => none
  | p :: rest, k => if p.1 = k then some p.2 else pyGet rest k

/-- Model.update: `for key in param_dict: setattr(self, key, param_dict[key])`,
applied to a bare attribute state. -/
def applyParams {V : Type} (s : AttrState V) (params : AttrState V) : AttrState V :=
  params.foldl (fun s p => pySet s p.1 p.2) s

/-- itertools.product over a list of candidate-value lists: row-major order,
the last list cycling fastest. -/
def pyProduct {α : Type} : List (List α) → List (List α)
  | [] => [[]]
  | l :: ls => l.flatMap fun v => (pyProduct ls).map fun t => v :: t

/-- The body of create_parameter_grid once keys and values have been
unpacked: `[dict(zip(keys, v)) for v in product(*values)]`. -/
def paramGridCore {V : Type} (scenario_inputs : List (String × List V)) :
    List (AttrState V) :=
  (pyProduct (scenario_inputs.map Prod.snd)).map fun t =>
    (scenario_inputs.map Prod.fst).zip t

/-- create_parameter_grid (whatif.py lines 7-27).  The dict of scenario
inputs is its insertion-ordered item list.  On an empty dict the line
`keys, values = zip(*scenario_inputs.items())` raises ValueError
(`zip()` yields nothing to unpack). -/
def create_parameter_grid {V : Type} (scenario_inputs : List (String × List V)) :
    Except PyExc (List (AttrState V)) :=
  match scenario_inputs with
  | [] => .error .valueError
  | _ => .ok (paramGridCore scenario_inputs)

/-- The two-object heap of one driver call: the caller's model and the
driver's deep copy. -/
structure World (V : Type) where
  self : AttrState V
  clone : AttrState V
deriving DecidableEq, Repr

/-- Model.update applied to the clone (all drivers mutate only the clone). -/
def updateClone {V : Type} (w : World V) (params : AttrState V) : World V :=
  params.foldl (fun w p => { w with clone := pySet w.clone p.1 p.2 }) w

/-- Method suite of a model class: name → pure function of the attribute
state, possibly raising. -/
abbrev Methods (V : Type) := String → AttrState V → Except PyExc V

/-- The inner output loop shared by data_table and simulate:
`for output in outputs: out_val = getattr(model_clone, output)()`,
collecting `(name, value)` pairs in order, propagating the first raise. -/
def evalOutputs {V : Type} (M : Methods V) (st : AttrState V) :
    List String → Except PyExc (AttrState V)
  | [] => .ok []
  | o :: rest =>
      match M o st with
      | .error e => .error e
      | .ok v =>
          match evalOutputs M st rest with
          | .error e => .error e
          | .ok r => .ok ((o, v) :: r)

/-- One row of the data table: `result = copy.copy(params)` then
`result[output] = out_val` for each output, in order. -/
def rowOf {V : Type} (params outVals : AttrState V) : AttrState V :=
  outVals.foldl (fun r p => pySet r p.1 p.2) params

/-- The scenario loop of data_table (lines 95-108): update the single
retained clone, evaluate all outputs on it, build the row. -/
def dt_loop {V : Type} (M : Methods V) (outs : List String) :
    List (AttrState V) → World V → World V × Except PyExc (List (AttrState V))
  | [], w => (w, .ok [])
  | params :: rest, w =>
      let w1 := updateClone w params
      match evalOutputs M w1.clone outs with
      | .error e => (w1, .error e)
      | .ok outVals =>
          match dt_loop M outs rest w1 with
          | (w2, .error e) => (w2, .error e)
          | (w2, .ok rows) => (w2, .ok (rowOf params outVals :: rows))

/-- Model.data_table (lines 68-112).  Clones the model once, expands the
scenario grid, loops.  The pandas DataFrame made of the row dictionaries is
modelled as the list of rows. -/
def data_table {V : Type} (M : Methods V) (w : World V)
    (scenario_inputs : List (String × List V)) (outputs : List String) :
    World V × Except PyExc (List (AttrState V)) :=
  let w1 : World V := { w with clone := w.self }
  match create_parameter_grid scenario_inputs with
  | .error e => (w1, .error e)
  | .ok grid => dt_loop M outputs grid w1

/-- One element of the list returned by simulate. -/
structure ScenarioRec (V : Type) where
  scenario_base_vals : AttrState V
  scenario_num : Nat
  scenario_vals : AttrState V
  output : AttrState V
deriving DecidableEq, Repr

/-- The scenario loop of simulate (lines 251-269): cumulative clone update,
output evaluation, one record per scenario with a 0-based running index.
The scenario_base_vals field is filled in by the caller (see simulate). -/
def sim_loop {V : Type} (M : Methods V) (outs : List String) :
    List (AttrState V) → Nat → World V → World V × Except PyExc (List (ScenarioRec V))
  | [], _, w => (w, .ok [])
  | params :: rest, k, w =>
      let w1 := updateClone w params
      match evalOutputs M w1.clone outs with
      | .error e => (w1, .error e)
      | .ok outVals =>
          match sim_loop M outs rest (k + 1) w1 with
          | (w2, .error e) => (w2, .error e)
          | (w2, .ok recs) =>
              (w2, .ok ({ scenario_base_vals := [], scenario_num := k,
                          scenario_vals := params, output := outVals } :: recs))

/-- Model.simulate (lines 195-290).  Clones the model, installs the random
input arrays on the clone, then runs one scenario (scenario_inputs = none)
or the whole grid.  `scenario_base_vals = vars(model_clone)` stores the
clone's live attribute dictionary itself, not a copy, so in every returned
record that field holds the dictionary's contents as of the driver's
return, i.e. after the last scenario assignment; `vars(self)` likewise
aliases the original's dictionary, which the driver never mutates. -/
def simulate {V : Type} (M : Methods V) (w : World V)
    (random_inputs : AttrState V) (outputs : List String)
    (scenario_inputs : Option (List (String × List V)))
    (keep_random_inputs : Bool) :
    World V × Except PyExc (List (ScenarioRec V)) :=
  let w1 : World V := { w with clone := w.self }
  let w2 := updateClone w1 random_inputs
  match scenario_inputs with
  | some si =>
      match create_parameter_grid si with
      | .error e => (w2, .error e)
      | .ok grid =>
          match sim_loop M outputs grid 0 w2 with
          | (w3, .error e) => (w3, .error e)
          | (w3, .ok recs) =>
              let base := if keep_random_inputs then w3.clone else w3.self
              (w3, .ok (recs.map fun r => { r with scenario_base_vals := base }))
  | none =>
      match evalOutputs M w2.clone outputs with
      | .error e => (w2, .error e)
      | .ok outVals =>
          let base := if keep_random_inputs then w2.clone else w2.self
          (w2, .ok [{ scenario_base_vals := base, scenario_num := 0,
                      scenario_vals := [], output := outVals }])

/-- Method suite for goal_seek: the objective method is a pure numeric
function of the attribute state.  Numeric attribute values and method
results are modelled as exact rationals, since goal_seek halves
intervals. -/
abbrev MethodsQ := String → AttrState ℚ → ℚ

/-- The bisection loop of goal_seek (lines 162-193), with the remaining
iteration count as fuel: `for n in range(1, N + 1)` runs the body N times;
falling off the loop returns `(a_n + b_n) / 2`.  Each iteration sets the
changed attribute to the midpoint, then back to a_n, then to b_n,
re-evaluating the objective method at each point. -/
def gs_loop (M : MethodsQ) (by_changing obj_fn : String) (target : ℚ) :
    Nat → ℚ → ℚ → World ℚ → World ℚ × Option ℚ
  | 0, a_n, b_n, w => (w, some ((a_n + b_n) / 2))
  | n + 1, a_n, b_n, w =>
      let m_n := (a_n + b_n) / 2
      let w1 : World ℚ := { w with clone := pySet w.clone by_changing m_n }
      let f_m_n := M obj_fn w1.clone
      let w2 : World ℚ := { w1 with clone := pySet w1.clone by_changing a_n }
      let f_a_n := M obj_fn w2.clone
      let w3 : World ℚ := { w2 with clone := pySet w2.clone by_changing b_n }
      let f_b_n := M obj_fn w3.clone
      if (f_a_n - target) * (f_m_n - target) < 0 then
        gs_loop M by_changing obj_fn target n a_n m_n w3
      else if (f_b_n - target) * (f_m_n - target) < 0 then
        gs_loop M by_changing obj_fn target n m_n b_n w3
      else if f_m_n = target then (w3, some m_n)
      else (w3, none)

/-- Model.goal_seek (lines 114-193).  Clones the model, probes the two
endpoints, rejects a non-bracketing interval, otherwise bisects. -/
def goal_seek (M : MethodsQ) (w : World ℚ) (obj_fn : String) (target : ℚ)
    (by_changing : String) (a b : ℚ) (N : Nat) : World ℚ × Option ℚ :=
  let w1 : World ℚ := { w with clone := w.self }
  let w2 : World ℚ := { w1 with clone := pySet w1.clone by_changing a }
  let f_a_0 := M obj_fn w2.clone
  let w3 : World ℚ := { w2 with clone := pySet w2.clone by_changing b }
  let f_b_0 := M obj_fn w3.clone
  if (f_a_0 - target) * (f_b_0 - target) ≥ 0 then (w3, none)
  else gs_loop M by_changing obj_fn target N a b w3

/-- A row of the flattened results table: column name → cell value.  A
pandas DataFrame is modelled by its list of rows, each row carrying its
named cells in column order; the column metadata of a zero-row frame is
not represented (a zero-row frame contributes no rows to any result the
claims observe). -/
abbrev Row := AttrState Val

/-- Column extraction of `pd.DataFrame(r['output'])`: every output value
must be array-like (simulate's contract; an all-scalar dict raises
ValueError in pandas, and mixed scalar broadcasting, which no record
produced by this code base ever needs, is conservatively mapped to the
same error). -/
def extractCols : AttrState Val → Except PyExc (List (String × List Int))
  | [] => .ok []
  | p :: rest =>
      match p.2 with
      | .arr l =>
          match extractCols rest with
          | .error e => .error e
          | .ok cs => .ok ((p.1, l) :: cs)
      | _ => .error .valueError

/-- Rows of `pd.DataFrame(r['output'])`: one row per replication index,
cells in output-column order.  Arrays of unequal length raise ValueError. -/
def baseRows (cs : List (String × List Int)) (n : Nat) : List Row :=
  (List.range n).map fun i => cs.map fun c => (c.1, PyVal.num (c.2.getD i 0))

/-- Column assignment `df[k] = v` on a frame that already has its rows: a
scalar broadcasts to every row, a list-like value is assigned element-wise
and raises ValueError when its length differs from the row count (pandas
semantics; the column is overwritten in place if present, appended
otherwise).  The pandas corner in which assigning a list to a frame with
no columns at all re-creates the index is not modelled: it is reachable
only from a record with an empty output dict. -/
def addCol (rows : List Row) (k : String) (v : Val) : Except PyExc (List Row) :=
  match v with
  | .arr l =>
      if l.length = rows.length then
        .ok ((rows.zip l).map fun rl => pySet rl.1 k (PyVal.num rl.2))
      else .error .valueError
  | v => .ok (rows.map fun row => pySet row k v)

/-- The loop of lines 45-46: one column assignment per scenario_vals
entry, in order, propagating the first raise. -/
def addCols (rows : List Row) : List (String × Val) → Except PyExc (List Row)
  | [] => .ok rows
  | p :: rest =>
      match addCol rows p.1 p.2 with
      | .error e => .error e
      | .ok rows2 => addCols rows2 rest

/-- Lines 44-46: `df['scenario_num'] = r['scenario_num']` (an int scalar)
then one column per scenario_vals entry, in order. -/
def addScenarioCols (r : ScenarioRec Val) (rows : List Row) : Except PyExc (List Row) :=
  match addCol rows "scenario_num" (PyVal.num (r.scenario_num : Int)) with
  | .error e => .error e
  | .ok rows1 => addCols rows1 r.scenario_vals

/-- The per-record DataFrame of get_sim_results_df (lines 42-48). -/
def recordRows (r : ScenarioRec Val) : Except PyExc (List Row)  :=
  match extractCols r.output with
  | .error e => .error e
  | .ok [] => addScenarioCols r []
  | .ok (c :: cs) =>
      if cs.all fun d => d.2.length = c.2.length then
        addScenarioCols r (baseRows (c :: cs) c.2.length)
      else .error .valueError

/-- The record loop of get_sim_results_df (lines 41-48). -/
def buildDFs : List (ScenarioRec Val) → Except PyExc (List (List Row))
  | [] => .ok []
  | r :: rest =>
      match recordRows r with
      | .error e => .error e
      | .ok d =>
          match buildDFs rest with
          | .error e => .error e
          | .ok ds => .ok (d :: ds)

/-- Columns of a frame: the column names its rows carry. -/
def dfCols : List Row → List String
  | [] => []
  | row :: _ => row.map Prod.fst

/-- Union of the frames' column lists in order of first appearance, as
pandas outer alignment computes it (sort=False semantics). -/
def colUnion (cols : List (List String)) : List String :=
  cols.foldl (fun acc cs => acc ++ cs.filter fun c => ¬ c ∈ acc) []

/-- Alignment of one row to the concatenated frame's column list: existing
cells keep their values, missing columns are filled with NaN. -/
def reindex (cols : List String) (row : Row) : Row :=
  cols.map fun c => (c, (pyGet row c).getD PyVal.nan)

/-- `pd.concat(dfs)`: the result's columns are the union of the frames'
columns in first-appearance order, every row is aligned to that union with
NaN filling the columns its frame lacked, and rows keep frame order then
row order.  On frames that share one column list this is plain row
concatenation. -/
def pdConcat (dfs : List (List Row)) : List Row :=
  (dfs.flatten).map (reindex (colUnion (dfs.map dfCols)))

/-- get_sim_results_df (lines 30-54).  With more than one frame the code
concatenates; with at most one it returns `dfs[0]`, which raises
IndexError on an empty results list. -/
def get_sim_results_df (results : List (ScenarioRec Val)) : Except PyExc (List Row) :=
  match buildDFs results with
  | .error e => .error e
  | .ok dfs =>
      if dfs.length > 1 then .ok (pdConcat dfs)
      else
        match dfs with
        | [] => .error .indexError
        | d :: _ => .ok d

/-!  Specification-side definitions.  These follow the spec's words and are
compared with the source-translated definitions above in the refinement
theorems. -/

/-- Classic bisection as §4.6 words it, over a pure objective function:
keep the half that brackets the crossing, return the midpoint on an exact
hit, give up (none) when no half brackets, and return the final midpoint
when the budget runs out. -/
def bisectLoop (f : ℚ → ℚ) (target : ℚ) : Nat → ℚ → ℚ → Option ℚ
  | 0, a, b => some ((a + b) / 2)
  | n + 1, a, b =>
      let m := (a + b) / 2
      if (f a - target) * (f m - target) < 0 then bisectLoop f target n a m
      else if (f b - target) * (f m - target) < 0 then bisectLoop f target n m b
      else if f m = target then some m
      else none

/-- GoalSeeker.solve as §4.6 words it: None without a bracketing sign
change, else bisection. -/
def goalSeekSpec (f : ℚ → ℚ) (target : ℚ) (a b : ℚ) (N : Nat) : Option ℚ :=
  if (f a - target) * (f b - target) ≥ 0 then none
  else bisectLoop f target N a b

/-- Data-table rows as §4.3 words them, driven by the list of scenario
assignments paired with the cumulative attribute state each row is
evaluated at. -/
def specTable {V : Type} (M : Methods V) (outs : List String) :
    List (AttrState V × AttrState V) → Except PyExc (List (AttrState V))
  | [] => .ok []
  | q :: rest =>
      match evalOutputs M q.2 outs with
      | .error e => .error e
      | .ok outVals =>
          match specTable M outs rest with
          | .error e => .error e
          | .ok rows => .ok (rowOf q.1 outVals :: rows)

/-- DataTableRunner.run as §4.3 words it: expand the grid, evaluate row k
on the cumulatively mutated attribute state (the scanl of Model.update
over the assignments), one row per scenario in generation order. -/
def dataTableSpec {V : Type} (M : Methods V) (attrs : AttrState V)
    (scenario_inputs : List (String × List V)) (outs : List String) :
    Except PyExc (List (AttrState V)) :=
  match create_parameter_grid scenario_inputs with
  | .error e => .error e
  | .ok grid => specTable M outs (grid.zip (grid.scanl applyParams attrs).tail)

/-- Flattened result row of §4.5 for record r and replication index i, in
the column order the code produces: output cells first, then scenario_num,
then the scenario assignment. -/
def flatSpecRow (r : ScenarioRec Val) (i : Nat) : Row :=
  (r.output.map fun p => (p.1, PyVal.num (p.2.arrD.getD i 0))) ++
    ("scenario_num", PyVal.num (r.scenario_num : Int)) :: r.scenario_vals

/-!  Concrete model instances used by witnesses and counterexamples. -/

/-- Numeric value of an attribute, defaulting to 0 (concrete models only
read attributes they know are present). -/
def getNum (st : AttrState Val) (k : String) : Int :=
  match pyGet st k with
  | some (.num q) => q
  | _ => 0

/-- A model class with one output method doubling the attribute x
(the data-table example of §8). -/
def doubleM : Methods Val := fun name st =>
  if name = "double" then .ok (.num (2 * getNum st "x")) else .error .attributeError

/-- A model class with one output method returning the attribute d
unchanged (the simulation example of §8). -/
def identityM : Methods Val := fun name st =>
  if name = "identity" then
    match pyGet st "d" with
    | some v => .ok v
    | none => .error .attributeError
  else .error .attributeError

/-- A model class whose single output method always raises. -/
def boomM : Methods Val := fun _ _ => .error (.userError "boom")

/-- A model class with no usable output methods. -/
def noM : Methods Val := fun _ _ => .error .attributeError

/-- Concrete scenario-input mapping used by the grid witness. -/
def siW : List (String × List Val) :=
  [("x", [PyVal.num 1, PyVal.num 2]), ("y", [PyVal.num 3])]

/-- Concrete simulation records used by the flattening witness. -/
def recA : ScenarioRec Val :=
  { scenario_base_vals := [], scenario_num := 0,
    scenario_vals := [("p", PyVal.num 5)], output := [("y", PyVal.arr [1, 2])] }

def recB : ScenarioRec Val :=
  { scenario_base_vals := [], scenario_num := 1,
    scenario_vals := [("p", PyVal.num 6)], output := [("y", PyVal.arr [3, 4])] }

/-- The caller's model of the base-values counterexample: one attribute x. -/
def wC7 : World Val := { self := [("x", PyVal.num 0)], clone := [] }

/-- The clone's attribute dictionary at the end of that simulate call. -/
def baseC7 : AttrState Val := [("x", PyVal.num 2), ("d", PyVal.arr [1])]

def recC70 : ScenarioRec Val :=
  { scenario_base_vals := baseC7, scenario_num := 0,
    scenario_vals := [("x", PyVal.num 1)], output := [] }

def recC71 : ScenarioRec Val :=
  { scenario_base_vals := baseC7, scenario_num := 1,
    scenario_vals := [("x", PyVal.num 2)], output := [] }

/-- The heap as that simulate call returns it. -/
def wC7out : World Val := { self := [("x", PyVal.num 0)], clone := baseC7 }

/-!  Helper lemmas. -/

theorem updateClone_self {V : Type} (params : AttrState V) :
    ∀ w : World V, (updateClone w params).self = w.self := by
  induction params with
  | nil => intro w; rfl
  | cons p rest ih =>
      intro w
      simpa [updateClone, List.foldl_cons] using ih { w with clone := pySet w.clone p.1 p.2 }

theorem updateClone_clone {V : Type} (params : AttrState V) :
    ∀ w : World V, (updateClone w params).clone = applyParams w.clone params := by
  induction params with
  | nil => intro w; rfl
  | cons p rest ih =>
      intro w
      simpa [updateClone, applyParams, List.foldl_cons]
        using ih { w with clone := pySet w.clone p.1 p.2 }

theorem pySet_pySet {V : Type} (k : String) (v1 v2 : V) :
    ∀ s : AttrState V, pySet (pySet s k v1) k v2 = pySet s k v2 := by
  intro s
  induction s with
  | nil => simp [pySet]
  | cons p rest ih =>
      by_cases h : p.1 = k
      · simp [pySet, h]
      · simp [pySet, h, ih]

theorem pySet_append_of_not_mem {V : Type} (k : String) (v : V) :
    ∀ s : AttrState V, k ∉ s.map Prod.fst → pySet s k v = s ++ [(k, v)] := by
  intro s
  induction s with
  | nil => intro _; rfl
  | cons p rest ih =>
      intro h
      simp only [List.map_cons, List.mem_cons] at h
      push_neg at h
      have h1 : ¬ p.1 = k := fun hh => h.1 hh.symm
      simp [pySet, h1, ih h.2]

theorem sumConstMap {α : Type} (m : Nat) :
    ∀ l : List α, (l.map fun _ => m).sum = l.length * m := by
  intro l
  induction l with
  | nil => simp
  | cons x xs ih => simp [ih, Nat.succ_mul, Nat.add_comm]

theorem pyProduct_length {α : Type} :
    ∀ ls : List (List α), (pyProduct ls).length = (ls.map List.length).prod := by
  intro ls
  induction ls with
  | nil => simp [pyProduct]
  | cons l ls ih =>
      simp [pyProduct, List.length_flatMap, Function.comp_def, ih, sumConstMap]

theorem pyProduct_mem_length {α : Type} :
    ∀ (ls : List (List α)) (t : List α), t ∈ pyProduct ls → t.length = ls.length := by
  intro ls
  induction ls with
  | nil =>
      intro t ht
      simp [pyProduct] at ht
      simp [ht]
  | cons l ls ih =>
      intro t ht
      simp only [pyProduct, List.mem_flatMap, List.mem_map] at ht
      obtain ⟨v, _, t2, ht2, rfl⟩ := ht
      simp [ih t2 ht2]

theorem flatMapSingle {α β : Type} (f : α → β) :
    ∀ l : List α, (l.flatMap fun v => [f v]) = l.map f := by
  intro l
  induction l with
  | nil => rfl
  | cons x xs ih => simp [ih]

theorem pyProduct_append {α : Type} (l : List α) :
    ∀ ls : List (List α),
      pyProduct (ls ++ [l]) = (pyProduct ls).flatMap fun t => l.map fun v => t ++ [v] := by
  intro ls
  induction ls with
  | nil =>
      simp only [List.nil_append, pyProduct, List.flatMap_singleton]
      exact flatMapSingle (fun v => [v]) l
  | cons x ls ih =>
      rw [List.cons_append]
      simp only [pyProduct, ih, List.map_flatMap, List.flatMap_map, List.flatMap_assoc,
        List.map_map]
      apply List.flatMap_congr
      intro v _
      apply List.flatMap_congr
      intro t _
      rfl

theorem pyProduct_empty_factor {α : Type} :
    ∀ ls : List (List α), ([] : List α) ∈ ls → pyProduct ls = [] := by
  intro ls
  induction ls with
  | nil => intro h; cases h
  | cons l ls ih =>
      intro h
      rcases List.mem_cons.mp h with h | h
      · simp [pyProduct, ← h]
      · simp [pyProduct, ih h]

theorem pyProduct_entry_mem {V : Type} :
    ∀ (si : List (String × List V)) (t : List V), t ∈ pyProduct (si.map Prod.snd) →
      ∀ q ∈ ((si.map Prod.fst).zip t).zip si, q.1.2 ∈ q.2.2 := by
  intro si
  induction si with
  | nil => intro t _ q hq; simp at hq
  | cons p si ih =>
      intro t ht q hq
      simp only [List.map_cons, pyProduct, List.mem_flatMap, List.mem_map] at ht
      obtain ⟨v, hv, t2, ht2, rfl⟩ := ht
      simp only [List.map_cons, List.zip_cons_cons, List.mem_cons] at hq
      rcases hq with hq | hq
      · simp [hq, hv]
      · exact ih t2 ht2 q hq

theorem scanl_head {α β : Type} (f : β → α → β) (b : β) (l : List α) :
    List.scanl f b l = b :: (List.scanl f b l).tail := by
  cases l <;> simp [List.scanl]

theorem gs_loop_self (M : MethodsQ) (bc obj : String) (t : ℚ) :
    ∀ (n : Nat) (a b : ℚ) (w : World ℚ), (gs_loop M bc obj t n a b w).1.self = w.self := by
  intro n
  induction n with
  | zero => intro a b w; rfl
  | succ n ih =>
      intro a b w
      simp only [gs_loop]
      split
      · exact ih _ _ _
      · split
        · exact ih _ _ _
        · split <;> rfl

theorem gs_loop_spec (M : MethodsQ) (bc obj : String) (t : ℚ) (base : AttrState ℚ) :
    ∀ (n : Nat) (a b : ℚ) (w : World ℚ),
      (∀ x : ℚ, pySet w.clone bc x = pySet base bc x) →
      (gs_loop M bc obj t n a b w).2 =
        bisectLoop (fun x => M obj (pySet base bc x)) t n a b := by
  intro n
  induction n with
  | zero => intro a b w _; rfl
  | succ n ih =>
      intro a b w hw
      simp only [gs_loop, bisectLoop, pySet_pySet, hw]
      split
      · exact ih _ _ _ fun x => by rw [pySet_pySet]
      · split
        · exact ih _ _ _ fun x => by rw [pySet_pySet]
        · split <;> rfl

theorem evalOutputs_error {V : Type} (M : Methods V) :
    ∀ (outs : List String) (st : AttrState V) (e : PyExc),
      evalOutputs M st outs = .error e → ∃ o ∈ outs, M o st = .error e := by
  intro outs
  induction outs with
  | nil => intro st e h; simp [evalOutputs] at h
  | cons o rest ih =>
      intro st e h
      simp only [evalOutputs] at h
      cases hM : M o st with
      | error e0 =>
          rw [hM] at h
          exact ⟨o, List.mem_cons_self o rest, by rw [hM, Except.error.inj h]⟩
      | ok v =>
          rw [hM] at h
          cases hR : evalOutputs M st rest with
          | error e1 =>
              rw [hR] at h
              obtain ⟨o2, ho2, hh⟩ := ih st e1 hR
              exact ⟨o2, List.mem_cons_of_mem o ho2, by rw [hh, Except.error.inj h]⟩
          | ok r => rw [hR] at h; cases h

theorem dt_loop_self {V : Type} (M : Methods V) (outs : List String) :
    ∀ (grid : List (AttrState V)) (w : World V), (dt_loop M outs grid w).1.self = w.self := by
  intro grid
  induction grid with
  | nil => intro w; rfl
  | cons params rest ih =>
      intro w
      simp only [dt_loop]
      cases hE : evalOutputs M (updateClone w params).clone outs with
      | error e => simp [updateClone_self]
      | ok outVals =>
          have hrec := ih (updateClone w params)
          cases hD : dt_loop M outs rest (updateClone w params) with
          | mk w2 r2 =>
              rw [hD] at hrec
              cases r2 <;> simp_all [updateClone_self]

theorem sim_loop_self {V : Type} (M : Methods V) (outs : List String) :
    ∀ (grid : List (AttrState V)) (k : Nat) (w : World V),
      (sim_loop M outs grid k w).1.self = w.self := by
  intro grid
  induction grid with
  | nil => intro k w; rfl
  | cons params rest ih =>
      intro k w
      simp only [sim_loop]
      cases hE : evalOutputs M (updateClone w params).clone outs with
      | error e => simp [updateClone_self]
      | ok outVals =>
          have hrec := ih (k + 1) (updateClone w params)
          cases hD : sim_loop M outs rest (k + 1) (updateClone w params) with
          | mk w2 r2 =>
              rw [hD] at hrec
              cases r2 <;> simp_all [updateClone_self]

theorem dt_loop_spec {V : Type} (M : Methods V) (outs : List String) :
    ∀ (grid : List (AttrState V)) (w : World V),
      (dt_loop M outs grid w).2 =
        specTable M outs (grid.zip (List.scanl applyParams w.clone grid).tail) := by
  intro grid
  induction grid with
  | nil => intro w; rfl
  | cons params rest ih =>
      intro w
      rw [List.scanl_cons, List.singleton_append, List.tail_cons,
        scanl_head applyParams (applyParams w.clone params) rest, List.zip_cons_cons]
      simp only [dt_loop, specTable]
      have hc : (updateClone w params).clone = applyParams w.clone params :=
        updateClone_clone params w
      rw [hc]
      cases hE : evalOutputs M (applyParams w.clone params) outs with
      | error e => rfl
      | ok outVals =>
          cases hD : dt_loop M outs rest (updateClone w params) with
          | mk w2 r2 =>
              have hrec2 : r2 = specTable M outs
                  (rest.zip (List.scanl applyParams (applyParams w.clone params) rest).tail) := by
                have hrec := ih (updateClone w params)
                rw [hc, hD] at hrec
                exact hrec
              rw [← hrec2]
              cases r2 <;> rfl

theorem dt_loop_error {V : Type} (M : Methods V) (outs : List String) :
    ∀ (grid : List (AttrState V)) (w : World V) (e : PyExc),
      (dt_loop M outs grid w).2 = .error e → ∃ o ∈ outs, ∃ st, M o st = .error e := by
  intro grid
  induction grid with
  | nil => intro w e h; cases h
  | cons params rest ih =>
      intro w e h
      simp only [dt_loop] at h
      cases hE : evalOutputs M (updateClone w params).clone outs with
      | error e0 =>
          rw [hE] at h
          have h2 : (Except.error e0 : Except PyExc (List (AttrState V))) = .error e := h
          obtain ⟨o, ho, hM⟩ := evalOutputs_error M outs (updateClone w params).clone e0 hE
          exact ⟨o, ho, (updateClone w params).clone, by rw [hM, Except.error.inj h2]⟩
      | ok outVals =>
          rw [hE] at h
          cases hD : dt_loop M outs rest (updateClone w params) with
          | mk w2 r2 =>
              rw [hD] at h
              cases r2 with
              | error e1 =>
                  have h2 : (Except.error e1 : Except PyExc (List (AttrState V))) = .error e := h
                  exact (Except.error.inj h2) ▸ ih (updateClone w params) e1 (by rw [hD])
              | ok rows =>
                  have h2 : (Except.ok (rowOf params outVals :: rows) :
                      Except PyExc (List (AttrState V))) = .error e := h
                  exact Except.noConfusion h2

theorem sim_loop_error {V : Type} (M : Methods V) (outs : List String) :
    ∀ (grid : List (AttrState V)) (k : Nat) (w : World V) (e : PyExc),
      (sim_loop M outs grid k w).2 = .error e → ∃ o ∈ outs, ∃ st, M o st = .error e := by
  intro grid
  induction grid with
  | nil => intro k w e h; cases h
  | cons params rest ih =>
      intro k w e h
      simp only [sim_loop] at h
      cases hE : evalOutputs M (updateClone w params).clone outs with
      | error e0 =>
          rw [hE] at h
          have h2 : (Except.error e0 : Except PyExc (List (ScenarioRec V))) = .error e := h
          obtain ⟨o, ho, hM⟩ := evalOutputs_error M outs (updateClone w params).clone e0 hE
          exact ⟨o, ho, (updateClone w params).clone, by rw [hM, Except.error.inj h2]⟩
      | ok outVals =>
          rw [hE] at h
          cases hD : sim_loop M outs rest (k + 1) (updateClone w params) with
          | mk w2 r2 =>
              rw [hD] at h
              cases r2 with
              | error e1 =>
                  have h2 : (Except.error e1 : Except PyExc (List (ScenarioRec V))) = .error e := h
                  exact (Except.error.inj h2) ▸ ih (k + 1) (updateClone w params) e1 (by rw [hD])
              | ok recs => simp at h

theorem paramGridCore_append {V : Type} (front : List (String × List V)) (k : String)
    (vs : List V) :
    paramGridCore (front ++ [(k, vs)]) =
      (paramGridCore front).flatMap fun a => vs.map fun v => a ++ [(k, v)] := by
  simp only [paramGridCore, List.map_append, List.map_cons, List.map_nil, pyProduct_append,
    List.map_flatMap, List.flatMap_map, List.map_map]
  apply List.flatMap_congr
  intro t ht
  apply List.map_congr_left
  intro v _
  have hlen : (front.map Prod.fst).length = t.length := by
    simp [pyProduct_mem_length (front.map Prod.snd) t ht]
  simp only [Function.comp_apply]
  rw [List.zip_append hlen]
  simp

theorem extractCols_arr :
    ∀ out : AttrState Val, (∀ p ∈ out, p.2 = PyVal.arr p.2.arrD) →
      extractCols out = .ok (out.map fun p => (p.1, p.2.arrD)) := by
  intro out
  induction out with
  | nil => intro _; rfl
  | cons p rest ih =>
      intro h
      have hp := h p (List.mem_cons_self p rest)
      have ih2 := ih fun q hq => h q (List.mem_cons_of_mem p hq)
      simp only [extractCols]
      rw [hp, ih2]
      simp [PyVal.arrD]

theorem addCols_scalar_append :
    ∀ (svs : List (String × Val)) (rows : List Row),
      (∀ p ∈ svs, p.2.isArr = false) →
      (∀ row ∈ rows, ∀ p ∈ svs, p.1 ∉ row.map Prod.fst) →
      (svs.map Prod.fst).Nodup →
      addCols rows svs = .ok (rows.map fun row => row ++ svs) := by
  intro svs
  induction svs with
  | nil => intro rows _ _ _; simp [addCols]
  | cons q svs ih =>
      intro rows hsc hfresh hnodup
      have hnodup2 : (q.1 :: svs.map Prod.fst).Nodup := by
        rw [List.map_cons] at hnodup; exact hnodup
      have hmap : rows.map (fun row => pySet row q.1 q.2) =
          rows.map fun row => row ++ [q] := by
        apply List.map_congr_left
        intro row hrow
        have h2 := pySet_append_of_not_mem q.1 q.2 row
          (hfresh row hrow q (List.mem_cons_self q svs))
        simpa using h2
      have hq : addCol rows q.1 q.2 = .ok (rows.map fun row => row ++ [q]) := by
        have hqsc := hsc q (List.mem_cons_self q svs)
        cases hv : q.2 with
        | arr l => rw [hv] at hqsc; simp [PyVal.isArr] at hqsc
        | num x =>
            simp only [addCol]
            rw [hv] at hmap
            rw [hmap]
        | nan =>
            simp only [addCol]
            rw [hv] at hmap
            rw [hmap]
      simp only [addCols, hq]
      rw [ih (rows.map fun row => row ++ [q])
        (fun p hp => hsc p (List.mem_cons_of_mem q hp))
        (by
          intro row hrow p hp
          simp only [List.mem_map] at hrow
          obtain ⟨row0, hrow0, rfl⟩ := hrow
          simp only [List.map_append, List.mem_append, List.map_cons, List.map_nil,
            List.mem_singleton]
          intro hcon
          rcases hcon with hcon | hcon
          · exact hfresh row0 hrow0 p (List.mem_cons_of_mem q hp) hcon
          · have hq1 : q.1 ∉ svs.map Prod.fst := (List.nodup_cons.mp hnodup2).1
            exact hq1 (hcon ▸ List.mem_map_of_mem Prod.fst hp))
        (List.nodup_cons.mp hnodup2).2]
      simp [List.map_map, Function.comp_def, List.append_assoc]

theorem unionStepNew (CL : List String) :
    [] ++ (CL.filter fun c => ¬ c ∈ ([] : List String)) = CL := by
  simp

theorem unionStepKeep (CL : List String) :
    CL ++ (CL.filter fun c => ¬ c ∈ CL) = CL := by
  simp

theorem colUnion_keep (CL : List String) :
    ∀ ls : List (List String), (∀ cs ∈ ls, cs = CL) →
      List.foldl (fun acc cs => acc ++ cs.filter fun c => ¬ c ∈ acc) CL ls = CL := by
  intro ls
  induction ls with
  | nil => intro _; rfl
  | cons cs ls ih =>
      intro h
      have hcs := h cs (List.mem_cons_self cs ls)
      subst hcs
      simp only [List.foldl_cons]
      rw [unionStepKeep]
      exact ih fun a ha => h a (List.mem_cons_of_mem cs ha)

theorem reindex_self :
    ∀ row : Row, (row.map Prod.fst).Nodup → reindex (row.map Prod.fst) row = row := by
  intro row
  induction row with
  | nil => intro _; rfl
  | cons p rest ih =>
      intro hnd
      simp only [List.map_cons, List.nodup_cons] at hnd
      obtain ⟨hp, hrest⟩ := hnd
      simp only [reindex, List.map_cons]
      have hhead : (pyGet (p :: rest) p.1).getD PyVal.nan = p.2 := by simp [pyGet]
      have htail : (rest.map Prod.fst).map
          (fun c => (c, (pyGet (p :: rest) c).getD PyVal.nan)) = rest := by
        have hcongr : ∀ c ∈ rest.map Prod.fst,
            (c, (pyGet (p :: rest) c).getD PyVal.nan) =
            (c, (pyGet rest c).getD PyVal.nan) := by
          intro c hc
          have hcne : ¬ p.1 = c := fun hh => hp (hh ▸ hc)
          simp [pyGet, hcne]
        rw [List.map_congr_left hcongr]
        exact ih hrest
      rw [hhead, htail]

theorem dfCols_of_rows (CL : List String) :
    ∀ df : List Row, df ≠ [] → (∀ row ∈ df, row.map Prod.fst = CL) → dfCols df = CL := by
  intro df hne hrows
  cases df with
  | nil => exact absurd rfl hne
  | cons row rest => exact hrows row (List.mem_cons_self row rest)

theorem pdConcat_uniform (CL : List String) (hCL : CL.Nodup) :
    ∀ dfs : List (List Row),
      (∀ df ∈ dfs, dfCols df = CL) →
      (∀ df ∈ dfs, ∀ row ∈ df, row.map Prod.fst = CL) →
      pdConcat dfs = dfs.flatten := by
  intro dfs hcols hrows
  have hrow_fix : ∀ row ∈ dfs.flatten, reindex CL row = row := by
    intro row hrow
    rw [List.mem_flatten] at hrow
    obtain ⟨df, hdf, hrowdf⟩ := hrow
    have hk := hrows df hdf row hrowdf
    rw [← hk]
    exact reindex_self row (hk ▸ hCL)
  cases dfs with
  | nil => rfl
  | cons df0 rest =>
      have h0 := hcols df0 (List.mem_cons_self df0 rest)
      have hU : colUnion ((df0 :: rest).map dfCols) = CL := by
        simp only [colUnion, List.map_cons, List.foldl_cons, h0]
        rw [unionStepNew]
        apply colUnion_keep
        intro cs hcs
        simp only [List.mem_map] at hcs
        obtain ⟨df, hdf, rfl⟩ := hcs
        exact hcols df (List.mem_cons_of_mem df0 hdf)
      simp only [pdConcat, hU]
      have hfix2 : ∀ row ∈ (df0 :: rest).flatten, reindex CL row = id row := hrow_fix
      rw [List.map_congr_left hfix2, List.map_id]

theorem pdConcat_allNil :
    ∀ dfs : List (List Row), (∀ df ∈ dfs, df = []) → pdConcat dfs = [] := by
  intro dfs h
  have hf : dfs.flatten = [] := by
    rw [List.flatten_eq_nil_iff]
    exact h
  simp [pdConcat, hf]

theorem flatSpecRow_keys (r : ScenarioRec Val) (i : Nat) :
    (flatSpecRow r i).map Prod.fst =
      r.output.map Prod.fst ++ "scenario_num" :: r.scenario_vals.map Prod.fst := by
  simp [flatSpecRow, List.map_append, List.map_map, Function.comp_def]

theorem buildDFs_spec (g : ScenarioRec Val → List Row) :
    ∀ results : List (ScenarioRec Val),
      (∀ r ∈ results, recordRows r = .ok (g r)) →
      buildDFs results = .ok (results.map g) := by
  intro results
  induction results with
  | nil => intro _; rfl
  | cons r rest ih =>
      intro h
      simp only [buildDFs]
      rw [h r (List.mem_cons_self r rest), ih fun q hq => h q (List.mem_cons_of_mem r hq)]
      rfl

theorem recordRows_spec (r : ScenarioRec Val) (n : Nat)
    (hne : r.output ≠ [])
    (harr : ∀ p ∈ r.output, p.2 = PyVal.arr p.2.arrD ∧ p.2.arrD.length = n)
    (hnodup : ("scenario_num" :: r.scenario_vals.map Prod.fst).Nodup)
    (hdisj : ∀ c ∈ "scenario_num" :: r.scenario_vals.map Prod.fst,
      c ∉ r.output.map Prod.fst)
    (hsc : ∀ p ∈ r.scenario_vals, p.2.isArr = false) :
    recordRows r = .ok ((List.range n).map fun i => flatSpecRow r i) := by
  have hE : extractCols r.output = .ok (r.output.map fun p => (p.1, p.2.arrD)) :=
    extractCols_arr r.output fun p hp => (harr p hp).1
  have hadd : ∀ rows : List Row,
      (∀ row ∈ rows, row.map Prod.fst = r.output.map Prod.fst) →
      addScenarioCols r rows = .ok (rows.map fun row =>
        row ++ ("scenario_num", PyVal.num (r.scenario_num : Int)) :: r.scenario_vals) := by
    intro rows hkeys
    have hfresh : ∀ row ∈ rows,
        ∀ p ∈ ("scenario_num", PyVal.num (r.scenario_num : Int)) :: r.scenario_vals,
          p.1 ∉ row.map Prod.fst := by
      intro row hrow p hp
      rw [hkeys row hrow]
      rcases List.mem_cons.mp hp with hp | hp
      · rw [hp]
        exact hdisj "scenario_num" (List.mem_cons_self _ _)
      · exact hdisj p.1 (List.mem_cons_of_mem _ (List.mem_map_of_mem Prod.fst hp))
    have hnd : ((("scenario_num", PyVal.num (r.scenario_num : Int)) :: r.scenario_vals).map
        Prod.fst).Nodup := by
      rw [List.map_cons]; exact hnodup
    have hsc2 : ∀ p ∈ ("scenario_num", PyVal.num (r.scenario_num : Int)) :: r.scenario_vals,
        p.2.isArr = false := by
      intro p hp
      rcases List.mem_cons.mp hp with hp | hp
      · rw [hp]
        rfl
      · exact hsc p hp
    exact addCols_scalar_append
      (("scenario_num", PyVal.num (r.scenario_num : Int)) :: r.scenario_vals) rows
      hsc2 hfresh hnd
  simp only [recordRows]
  rw [hE]
  cases hout : r.output with
  | nil => exact absurd hout hne
  | cons p0 rest =>
      rw [hout] at harr
      simp only [List.map_cons]
      have hlen0 : p0.2.arrD.length = n := (harr p0 (List.mem_cons_self p0 rest)).2
      have hall : (List.map (fun p => (p.1, p.2.arrD)) rest).all
          (fun d => d.2.length = (p0.1, p0.2.arrD).2.length) = true := by
        rw [List.all_eq_true]
        intro d hd
        simp only [List.mem_map] at hd
        obtain ⟨q, hq, rfl⟩ := hd
        have hq2 := (harr q (List.mem_cons_of_mem p0 hq)).2
        simp [hq2, hlen0]
      rw [if_pos hall]
      have hkeys : ∀ row ∈ baseRows ((p0.1, p0.2.arrD) :: List.map
          (fun p => (p.1, p.2.arrD)) rest) (p0.1, p0.2.arrD).2.length,
          row.map Prod.fst = r.output.map Prod.fst := by
        intro row hrow
        simp only [baseRows, List.mem_map] at hrow
        obtain ⟨i, _, rfl⟩ := hrow
        simp [hout, List.map_map, Function.comp_def]
      rw [hadd _ hkeys]
      have hc2 : ((p0.1, p0.2.arrD).2).length = n := hlen0
      rw [hc2]
      simp [baseRows, flatSpecRow, hout, List.map_map, Function.comp_def]

/-!  Claim theorems. -/

/-- C1: for every model and every call to any of the three drivers
(data_table, simulate, goal_seek), the caller's original model instance is
left with exactly the attribute values it had before the call: each driver
deep-copies the model at entry and mutates only the clone. -/
theorem C1_drivers_never_mutate_original :
    (∀ (V : Type) (M : Methods V) (w : World V) (si : List (String × List V))
        (outs : List String), ((data_table M w si outs).1).self = w.self)
    ∧ (∀ (V : Type) (M : Methods V) (w : World V) (ri : AttrState V)
        (outs : List String) (si : Option (List (String × List V))) (keep : Bool),
        ((simulate M w ri outs si keep).1).self = w.self)
    ∧ (∀ (M : MethodsQ) (w : World ℚ) (obj : String) (t : ℚ) (bc : String)
        (a b : ℚ) (N : Nat), ((goal_seek M w obj t bc a b N).1).self = w.self) := by
  refine ⟨?_, ?_, ?_⟩
  · intro V M w si outs
    simp only [data_table]
    cases hG : create_parameter_grid si with
    | error e => rfl
    | ok grid => exact dt_loop_self M outs grid _
  · intro V M w ri outs si keep
    cases si with
    | none =>
        simp only [simulate]
        cases hE : evalOutputs M (updateClone { w with clone := w.self } ri).clone outs with
        | error e => simp [updateClone_self]
        | ok outVals => simp [updateClone_self]
    | some si0 =>
        simp only [simulate]
        cases hG : create_parameter_grid si0 with
        | error e => simp [updateClone_self]
        | ok grid =>
            cases hL : sim_loop M outs grid 0 (updateClone { w with clone := w.self } ri) with
            | mk w3 r3 =>
                have hs := sim_loop_self M outs grid 0 (updateClone { w with clone := w.self } ri)
                rw [hL] at hs
                cases r3 <;> simp_all [updateClone_self]
  · intro M w obj t bc a b N
    simp only [goal_seek]
    split
    · rfl
    · exact gs_loop_self M bc obj t N a b _

/-- C2: for every non-empty mapping from input name to a non-empty finite
candidate-value sequence, the grid's length is the product of the sequence
lengths; every assignment pairs exactly the original keys, in insertion
order, with values drawn from the respective key's sequence; and the
assignments follow row-major Cartesian-product order in which the
last-declared input's values cycle fastest (appending a last input turns
each assignment into a block that cycles through that input's values). -/
theorem C2_parameter_grid_shape {V : Type} (si : List (String × List V))
    (h1 : si ≠ []) (h2 : ∀ p ∈ si, p.2 ≠ []) (h3 : (si.map Prod.fst).Nodup) :
    ∃ g, create_parameter_grid si = .ok g
      ∧ g.length = (si.map fun p => p.2.length).prod
      ∧ (∀ a ∈ g, a.map Prod.fst = si.map Prod.fst
          ∧ ∀ q ∈ a.zip si, q.1.2 ∈ q.2.2)
      ∧ (∀ (front : List (String × List V)) (k : String) (vs : List V),
          si = front ++ [(k, vs)] →
          g = (paramGridCore front).flatMap fun a => vs.map fun v => a ++ [(k, v)]) := by
  refine ⟨paramGridCore si, ?_, ?_, ?_, ?_⟩
  · cases si with
    | nil => exact absurd rfl h1
    | cons p rest => rfl
  · simp [paramGridCore, pyProduct_length, List.map_map, Function.comp_def]
  · intro a ha
    simp only [paramGridCore, List.mem_map] at ha
    obtain ⟨t, ht, rfl⟩ := ha
    have hlen : t.length = si.length := by
      simpa using pyProduct_mem_length (si.map Prod.snd) t ht
    constructor
    · exact List.map_fst_zip _ _ (by simp [hlen])
    · exact fun q hq => pyProduct_entry_mem si t ht q hq
  · intro front k vs hsi
    rw [hsi]
    exact paramGridCore_append front k vs

/-- Witness for C2 at the mapping x in 1,2 and y in 3. -/
theorem C2_parameter_grid_shape_witness :
    ∃ g, create_parameter_grid siW = .ok g
      ∧ g.length = (siW.map fun p => p.2.length).prod
      ∧ (∀ a ∈ g, a.map Prod.fst = siW.map Prod.fst
          ∧ ∀ q ∈ a.zip siW, q.1.2 ∈ q.2.2)
      ∧ (∀ (front : List (String × List Val)) (k : String) (vs : List Val),
          siW = front ++ [(k, vs)] →
          g = (paramGridCore front).flatMap fun a => vs.map fun v => a ++ [(k, v)]) :=
  C2_parameter_grid_shape siW (by decide) (by decide) (by decide)

/-- C3: goal_seek behaves exactly as the claimed algorithm: None when the
endpoint products do not bracket the target, otherwise at most N bisection
iterations keeping the bracketing half, returning the midpoint on an exact
hit, None when no half brackets, and the final midpoint on budget
exhaustion — stated as equality with the spec-side bisection on the pure
objective x to f(x) induced by setting the changed attribute. -/
theorem C3_goal_seek_matches_spec (M : MethodsQ) (w : World ℚ) (obj_fn : String)
    (target : ℚ) (by_changing : String) (a b : ℚ) (N : Nat) :
    (goal_seek M w obj_fn target by_changing a b N).2 =
      goalSeekSpec (fun x => M obj_fn (pySet w.self by_changing x)) target a b N := by
  simp only [goal_seek, goalSeekSpec, pySet_pySet]
  split
  · rfl
  · exact gs_loop_spec M by_changing obj_fn target w.self N a b _
      fun x => by rw [pySet_pySet]

/-- C4: data_table returns one row per scenario assignment in grid order,
each row the assignment united with one entry per requested output,
evaluated on the single cumulatively mutated clone (refinement to the
spec-side scanl description), and on scenario_inputs x in 1,2,3 with the
2*x output it returns exactly the three rows with outputs 2, 4, 6. -/
theorem C4_data_table_rows :
    (∀ (V : Type) (M : Methods V) (w : World V) (si : List (String × List V))
        (outs : List String),
      (data_table M w si outs).2 = dataTableSpec M w.self si outs)
    ∧ (data_table doubleM ⟨[("x", PyVal.num 0)], []⟩
        [("x", [PyVal.num 1, PyVal.num 2, PyVal.num 3])] ["double"]).2 =
        .ok [[("x", PyVal.num 1), ("double", PyVal.num 2)],
             [("x", PyVal.num 2), ("double", PyVal.num 4)],
             [("x", PyVal.num 3), ("double", PyVal.num 6)]] := by
  constructor
  · intro V M w si outs
    simp only [data_table, dataTableSpec]
    cases hG : create_parameter_grid si with
    | error e => rfl
    | ok grid =>
        have hspec := dt_loop_spec M outs grid { w with clone := w.self }
        simpa using hspec
  · decide

/-- C5 counterexample: on the empty record list the claimed flattening
(an empty table) does not happen; the code indexes dfs[0] and raises
IndexError. -/
theorem C5_empty_results_counterexample :
    get_sim_results_df [] = .error .indexError
    ∧ get_sim_results_df [] ≠ .ok [] := by
  constructor <;> decide

/-- C5 amended: for every non-empty list of scenario records, each with at
least one output, all output arrays of the common length n, every record
sharing one output-name list and one scenario-key list (so the frames
agree on columns and pd.concat does not need NaN alignment), scenario
values being scalars, and with scenario_num, the scenario-value keys and
the output names pairwise distinct column names, flattening yields one row
per (record, replication) pair — the output cells at the replication
index, the scenario_num and the scenario values — concatenated in record
order then replication order; a single record produces the same schema. -/
theorem C5_flatten_rows (results : List (ScenarioRec Val)) (n : Nat)
    (h1 : results ≠ [])
    (h2 : ∀ r ∈ results, r.output ≠ [])
    (h3 : ∀ r ∈ results, ∀ p ∈ r.output,
      p.2 = PyVal.arr p.2.arrD ∧ p.2.arrD.length = n)
    (h4 : ∀ r ∈ results, ("scenario_num" :: r.scenario_vals.map Prod.fst).Nodup)
    (h5 : ∀ r ∈ results, ∀ c ∈ "scenario_num" :: r.scenario_vals.map Prod.fst,
      c ∉ r.output.map Prod.fst)
    (h6 : ∀ r ∈ results, (r.output.map Prod.fst).Nodup)
    (h7 : ∀ r ∈ results, ∀ p ∈ r.scenario_vals, p.2.isArr = false)
    (h8 : ∀ s1 ∈ results, ∀ s2 ∈ results,
      s1.output.map Prod.fst = s2.output.map Prod.fst
      ∧ s1.scenario_vals.map Prod.fst = s2.scenario_vals.map Prod.fst) :
    get_sim_results_df results =
      .ok (results.flatMap fun r => (List.range n).map fun i => flatSpecRow r i) := by
  have hrec : ∀ r ∈ results, recordRows r =
      .ok ((List.range n).map fun i => flatSpecRow r i) := fun r hr =>
    recordRows_spec r n (h2 r hr) (h3 r hr) (h4 r hr) (h5 r hr) (h7 r hr)
  have hb := buildDFs_spec (fun r => (List.range n).map fun i => flatSpecRow r i) results hrec
  simp only [get_sim_results_df]
  rw [hb]
  cases results with
  | nil => exact absurd rfl h1
  | cons r rest =>
      cases rest with
      | nil => simp
      | cons r2 rest2 =>
          have hgt : (List.map (fun x => List.map (fun i => flatSpecRow x i) (List.range n))
              (r :: r2 :: rest2)).length > 1 := by
            simp only [List.length_map, List.length_cons]
            omega
          cases n with
          | zero =>
              have hpc : pdConcat (List.map
                  (fun x => List.map (fun i => flatSpecRow x i) (List.range 0))
                  (r :: r2 :: rest2)) = [] := by
                apply pdConcat_allNil
                intro df hdf
                simp only [List.mem_map] at hdf
                obtain ⟨rj, _, rfl⟩ := hdf
                simp
              simp only []
              rw [if_pos hgt, hpc]
              simp
          | succ m =>
              have hCL : (r.output.map Prod.fst ++
                  "scenario_num" :: r.scenario_vals.map Prod.fst).Nodup := by
                rw [List.nodup_append]
                refine ⟨h6 r (List.mem_cons_self _ _), h4 r (List.mem_cons_self _ _), ?_⟩
                intro a ha hb2
                exact h5 r (List.mem_cons_self _ _) a hb2 ha
              have hrows : ∀ df ∈ List.map
                  (fun x => List.map (fun i => flatSpecRow x i) (List.range (m + 1)))
                  (r :: r2 :: rest2), ∀ row ∈ df,
                  row.map Prod.fst = r.output.map Prod.fst ++
                    "scenario_num" :: r.scenario_vals.map Prod.fst := by
                intro df hdf row hrow
                simp only [List.mem_map] at hdf
                obtain ⟨rj, hrj, rfl⟩ := hdf
                simp only [List.mem_map] at hrow
                obtain ⟨i, _, rfl⟩ := hrow
                rw [flatSpecRow_keys]
                have h8j := h8 rj hrj r (List.mem_cons_self _ _)
                rw [h8j.1, h8j.2]
              have hcols : ∀ df ∈ List.map
                  (fun x => List.map (fun i => flatSpecRow x i) (List.range (m + 1)))
                  (r :: r2 :: rest2),
                  dfCols df = r.output.map Prod.fst ++
                    "scenario_num" :: r.scenario_vals.map Prod.fst := by
                intro df hdf
                have hr2 := hrows df hdf
                simp only [List.mem_map] at hdf
                obtain ⟨rj, _, rfl⟩ := hdf
                apply dfCols_of_rows _ _ ?_ hr2
                simp [List.range_succ_eq_map]
              have hpc := pdConcat_uniform _ hCL _ hcols hrows
              simp only []
              rw [if_pos hgt, hpc]
              simp [List.flatten_eq_flatMap, List.flatMap_map]

/-- Witness for the amended C5 at two concrete same-schema records with
two replications each. -/
theorem C5_flatten_rows_witness :
    get_sim_results_df [recA, recB] =
      .ok ([recA, recB].flatMap fun r => (List.range 2).map fun i => flatSpecRow r i) :=
  C5_flatten_rows [recA, recB] 2 (by decide) (by decide) (by decide) (by decide)
    (by decide) (by decide) (by decide) (by decide)

/-- C6: simulate with scenario_inputs absent returns exactly one scenario
record: scenario_num 0, empty scenario_vals, and the outputs as evaluated
on the clone after the random input arrays were installed. -/
theorem C6_simulate_no_scenarios {V : Type} (M : Methods V) (w : World V)
    (random_inputs : AttrState V) (outputs : List String) (keep : Bool)
    (outVals : AttrState V)
    (h : evalOutputs M (applyParams w.self random_inputs) outputs = .ok outVals) :
    (simulate M w random_inputs outputs none keep).2 =
      .ok [{ scenario_base_vals :=
               if keep then applyParams w.self random_inputs else w.self,
             scenario_num := 0, scenario_vals := [], output := outVals }] := by
  simp only [simulate]
  have hc : (updateClone { w with clone := w.self } random_inputs).clone =
      applyParams w.self random_inputs := by
    rw [updateClone_clone]
  rw [hc, h]
  simp [hc, updateClone_self]

/-- Witness for C6: random input d = [1,2,3] and the identity output give
one record whose output array is [1,2,3]. -/
theorem C6_simulate_no_scenarios_witness :
    evalOutputs identityM (applyParams ([] : AttrState Val) [("d", PyVal.arr [1, 2, 3])])
        ["identity"] = .ok [("identity", PyVal.arr [1, 2, 3])]
    ∧ (simulate identityM ⟨[], []⟩ [("d", PyVal.arr [1, 2, 3])] ["identity"] none false).2 =
        .ok [{ scenario_base_vals := [], scenario_num := 0, scenario_vals := [],
               output := [("identity", PyVal.arr [1, 2, 3])] }] :=
  ⟨by decide,
   C6_simulate_no_scenarios identityM ⟨[], []⟩ [("d", PyVal.arr [1, 2, 3])] ["identity"]
     false [("identity", PyVal.arr [1, 2, 3])] (by decide)⟩

/-- C7 counterexample: with keep_random_inputs true and a scenario grid
that changes attribute x, every returned record's scenario_base_vals holds
the clone's attributes as of the driver's return (x = 2), not a snapshot
taken right after the random inputs were installed (x = 0, d = [1]):
vars(model_clone) aliases the live dictionary. -/
theorem C7_base_vals_not_snapshot_counterexample :
    (simulate noM wC7 [("d", PyVal.arr [1])] []
        (some [("x", [PyVal.num 1, PyVal.num 2])]) true).2 = .ok [recC70, recC71]
    ∧ recC70.scenario_base_vals = baseC7
    ∧ baseC7 ≠ [("x", PyVal.num 0), ("d", PyVal.arr [1])] := by
  refine ⟨by decide, by decide, by decide⟩

/-- C7 amended: scenario_base_vals is one shared dictionary across all
records of a simulate call: with keep_random_inputs true it is the clone's
attribute dictionary as observed at the driver's return (after the last
scenario assignment; equal to the post-randomization state only when no
scenario assignment changed an attribute), and with keep_random_inputs
false it is the original model's dictionary, which still holds the
pre-randomization attribute set. -/
theorem C7_base_vals_shared_live_dict {V : Type} (M : Methods V) (w : World V)
    (ri : AttrState V) (outs : List String) (si : Option (List (String × List V)))
    (keep : Bool) (w2 : World V) (recs : List (ScenarioRec V))
    (h : simulate M w ri outs si keep = (w2, .ok recs)) :
    ∀ r ∈ recs, r.scenario_base_vals = if keep then w2.clone else w.self := by
  cases si with
  | none =>
      simp only [simulate] at h
      cases hE : evalOutputs M (updateClone { w with clone := w.self } ri).clone outs with
      | error e => rw [hE] at h; simp at h
      | ok outVals =>
          rw [hE] at h
          simp only [Prod.mk.injEq, Except.ok.injEq] at h
          obtain ⟨hw2, hrecs⟩ := h
          intro r hr
          rw [← hrecs] at hr
          simp only [List.mem_singleton] at hr
          subst hr
          rw [← hw2]
          cases keep
          · simpa using updateClone_self ri { w with clone := w.self }
          · rfl
  | some si0 =>
      simp only [simulate] at h
      cases hG : create_parameter_grid si0 with
      | error e => rw [hG] at h; simp at h
      | ok grid =>
          simp only [hG] at h
          cases hL : sim_loop M outs grid 0 (updateClone { w with clone := w.self } ri) with
          | mk w3 r3 =>
              rw [hL] at h
              cases r3 with
              | error e => simp at h
              | ok recs0 =>
                  simp only [Prod.mk.injEq, Except.ok.injEq] at h
                  obtain ⟨hw2, hrecs⟩ := h
                  intro r hr
                  rw [← hrecs] at hr
                  simp only [List.mem_map] at hr
                  obtain ⟨r0, _, rfl⟩ := hr
                  have hself : w3.self = w.self := by
                    have hs := sim_loop_self M outs grid 0
                      (updateClone { w with clone := w.self } ri)
                    rw [hL] at hs
                    simpa [updateClone_self] using hs
                  rw [← hw2]
                  cases keep <;> simp [hself]

/-- Witness for the amended C7 at the keep_random_inputs = true run of the
counterexample. -/
theorem C7_base_vals_shared_live_dict_witness :
    recC70.scenario_base_vals = if true then wC7out.clone else wC7.self :=
  C7_base_vals_shared_live_dict noM wC7 [("d", PyVal.arr [1])] []
    (some [("x", [PyVal.num 1, PyVal.num 2])]) true wC7out [recC70, recC71]
    (by decide) recC70 (by decide)

/-- C8 counterexample: on the empty mapping create_parameter_grid raises
ValueError (unpacking the empty zip of items fails) instead of returning
the one-element grid holding the empty assignment. -/
theorem C8_empty_mapping_counterexample :
    create_parameter_grid ([] : List (String × List Val)) = .error .valueError
    ∧ create_parameter_grid ([] : List (String × List Val)) ≠ .ok [[]] := by
  constructor <;> decide

/-- C8 amended: create_parameter_grid applied to the empty mapping fails
with ValueError rather than returning a sequence of one empty
assignment. -/
theorem C8_empty_mapping_raises (V : Type) :
    create_parameter_grid ([] : List (String × List V)) = .error .valueError := rfl

/-- C9 counterexample: a key with zero candidate values yields the empty
grid, silently and with no error of any kind — the code base defines no
ConfigurationError. -/
theorem C9_zero_candidates_counterexample :
    create_parameter_grid [("x", ([] : List Val))] = .ok []
    ∧ create_parameter_grid [("x", ([] : List Val))] ≠ .error .configurationError := by
  constructor <;> decide

/-- C9 amended: for every non-empty mapping in which some key has zero
candidate values, create_parameter_grid silently returns the empty grid
(zero scenarios); nothing is raised. -/
theorem C9_zero_candidates_silent {V : Type} (si : List (String × List V))
    (h1 : si ≠ []) (h2 : ∃ p ∈ si, p.2 = []) :
    create_parameter_grid si = .ok [] := by
  obtain ⟨p, hp, hp2⟩ := h2
  have hfac : ([] : List V) ∈ si.map Prod.snd := by
    rw [← hp2]
    exact List.mem_map_of_mem Prod.snd hp
  have hprod := pyProduct_empty_factor (si.map Prod.snd) hfac
  cases si with
  | nil => exact absurd rfl h1
  | cons q rest =>
      simp only [create_parameter_grid, paramGridCore]
      rw [hprod]
      rfl

/-- Witness for the amended C9. -/
theorem C9_zero_candidates_silent_witness :
    create_parameter_grid [("x", ([] : List Val)), ("y", [PyVal.num 1])] = .ok [] :=
  C9_zero_candidates_silent [("x", ([] : List Val)), ("y", [PyVal.num 1])]
    (by decide) ⟨("x", []), by decide, rfl⟩

/-- Errors of create_parameter_grid are always the empty-mapping
ValueError. -/
theorem create_parameter_grid_error {V : Type} (si : List (String × List V)) (e : PyExc)
    (h : create_parameter_grid si = .error e) : e = PyExc.valueError := by
  cases si with
  | nil => exact (Except.error.inj h).symm
  | cons q rest => exact Except.noConfusion h

/-- C10 counterexample: a raising output makes data_table propagate the
underlying exception itself; no ModelEvaluationError (and hence no
scenario index or output name) is attached. -/
theorem C10_unwrapped_error_counterexample :
    (data_table boomM ⟨[("x", PyVal.num 0)], []⟩ [("x", [PyVal.num 1])] ["boom"]).2 =
      .error (.userError "boom")
    ∧ PyExc.isModelEvalError (.userError "boom") = false := by
  constructor <;> decide

/-- C10 amended: when an output raises inside data_table or simulate, the
driver fails fast with no partial result, but the surfaced error is either
the grid-creation ValueError or exactly the exception some requested
output raised at some attribute state, unchanged — never a wrapping
ModelEvaluationError carrying scenario index and output name. -/
theorem C10_errors_propagate_unwrapped :
    (∀ (V : Type) (M : Methods V) (w : World V) (si : List (String × List V))
        (outs : List String) (e : PyExc), (data_table M w si outs).2 = .error e →
        e = PyExc.valueError ∨ ∃ o ∈ outs, ∃ st, M o st = .error e)
    ∧ (∀ (V : Type) (M : Methods V) (w : World V) (ri : AttrState V)
        (outs : List String) (si : Option (List (String × List V))) (keep : Bool)
        (e : PyExc), (simulate M w ri outs si keep).2 = .error e →
        e = PyExc.valueError ∨ ∃ o ∈ outs, ∃ st, M o st = .error e) := by
  constructor
  · intro V M w si outs e h
    simp only [data_table] at h
    cases hG : create_parameter_grid si with
    | error e0 =>
        rw [hG] at h
        have h2 : (Except.error e0 : Except PyExc (List (AttrState V))) = .error e := h
        exact Or.inl (by
          rw [← Except.error.inj h2]
          exact create_parameter_grid_error si e0 hG)
    | ok grid =>
        rw [hG] at h
        have h2 : (dt_loop M outs grid { w with clone := w.self }).2 = .error e := h
        exact Or.inr (dt_loop_error M outs grid { w with clone := w.self } e h2)
  · intro V M w ri outs si keep e h
    cases si with
    | none =>
        simp only [simulate] at h
        cases hE : evalOutputs M (updateClone { w with clone := w.self } ri).clone outs with
        | error e0 =>
            rw [hE] at h
            have h2 : (Except.error e0 : Except PyExc (List (ScenarioRec V))) = .error e := h
            obtain ⟨o, ho, hM⟩ :=
              evalOutputs_error M outs (updateClone { w with clone := w.self } ri).clone e0 hE
            exact Or.inr ⟨o, ho, (updateClone { w with clone := w.self } ri).clone,
              by rw [hM, Except.error.inj h2]⟩
        | ok outVals => rw [hE] at h; simp at h
    | some si0 =>
        simp only [simulate] at h
        cases hG : create_parameter_grid si0 with
        | error e0 =>
            rw [hG] at h
            have h2 : (Except.error e0 : Except PyExc (List (ScenarioRec V))) = .error e := h
            exact Or.inl (by
              rw [← Except.error.inj h2]
              exact create_parameter_grid_error si0 e0 hG)
        | ok grid =>
            simp only [hG] at h
            cases hL : sim_loop M outs grid 0 (updateClone { w with clone := w.self } ri) with
            | mk w3 r3 =>
                rw [hL] at h
                cases r3 with
                | error e1 =>
                    have h2 : (Except.error e1 : Except PyExc (List (ScenarioRec V))) =
                        .error e := h
                    exact Or.inr ((Except.error.inj h2) ▸
                      sim_loop_error M outs grid 0 (updateClone { w with clone := w.self } ri)
                        e1 (by rw [hL]))
                | ok recs => simp at h

/-- Witness for the amended C10: one data_table run and one simulate run
whose outputs raise. -/
theorem C10_errors_propagate_unwrapped_witness :
    (PyExc.userError "boom" = PyExc.valueError
      ∨ ∃ o ∈ ["boom"], ∃ st, boomM o st = .error (.userError "boom"))
    ∧ (PyExc.attributeError = PyExc.valueError
      ∨ ∃ o ∈ ["identity"], ∃ st, identityM o st = .error .attributeError) :=
  ⟨C10_errors_propagate_unwrapped.1 Val boomM ⟨[("x", PyVal.num 0)], []⟩
      [("x", [PyVal.num 1])] ["boom"] (.userError "boom") (by decide),
   C10_errors_propagate_unwrapped.2 Val identityM ⟨[], []⟩ [] ["identity"] none false
      .attributeError (by decide)⟩
